import Mathlib

/-!
Verification of the golftrip scoring engine (src/src/App.jsx).

Shallow embedding conventions:
* A JS number is modelled as `ℚ` (all arithmetic the engine performs on
  strokes, pars and points is exact at these magnitudes).
* A raw score cell holds either the empty string, a numeric string/number,
  or a non-numeric string; `RawEntry` has one constructor per case.
  `NaN` results of `Number(...)` are modelled as `Option.none` in the two
  score-lookup functions.
* Objects/maps are modelled as functions into `Option`; an absent key is
  `none` (JS `undefined`).
* The mode id stays a `String`, mirroring the string dispatch of the
  source, including its unknown-mode fall-through.
-/

namespace GolfTrip

/-- A raw stroke cell as stored in a score row: the empty string (also
covering JS `null`, which `Number` coerces to `0` exactly like `""`),
a numeric entry, or a non-numeric string (`Number` gives `NaN`). -/
inductive RawEntry where
  | empty : RawEntry
  | num : ℚ → RawEntry
  | nonNum : RawEntry
  deriving DecidableEq

/-- `empty18()` — the 18-cell all-empty score row. -/
def empty18 : List RawEntry := List.replicate 18 RawEntry.empty

structure Player where
  id : String
  name : String
  deriving DecidableEq

structure Team where
  id : String
  name : String
  playerIds : List String
  deriving DecidableEq

structure GameMatch where
  id : String
  teamAId : String
  teamBId : String
  mode : String
  deriving DecidableEq

/-- Team snapshot captured inside an archive entry. -/
structure TeamSnap where
  id : String
  name : String
  playerIds : List String
  playerNames : List String
  deriving DecidableEq

/-- An archive (history) entry; `scores` is the captured `scoresSnapshot`,
a map from player id to an 18-cell raw row. -/
structure Hist where
  id : String
  savedAt : ℕ
  label : String
  courseKey : String
  mode : String
  teamA : TeamSnap
  teamB : TeamSnap
  scores : String → Option (List RawEntry)

structure Course where
  key : String
  name : String
  par : List ℚ

instance : Inhabited Course := ⟨⟨"", "", []⟩⟩

/-- The static `COURSES` table of the source. -/
def COURSES : List Course :=
  [⟨"hiawatha", "The Links at Hiawatha Landing",
      [4, 4, 3, 4, 4, 3, 5, 4, 5, 4, 4, 5, 3, 4, 4, 3, 5, 4]⟩,
   ⟨"enjoie", "En-Joie Golf Club",
      [4, 4, 5, 3, 5, 4, 3, 5, 4, 4, 4, 5, 4, 3, 4, 4, 3, 4]⟩,
   ⟨"conklin", "Conklin Players Club",
      [4, 3, 4, 4, 4, 5, 3, 4, 5, 3, 4, 4, 3, 5, 4, 4, 4, 5]⟩]

/-- The live session state visible to the scoring closures: roster, live
matches, archive list, selected course and the per-course score store. -/
structure LiveState where
  players : List Player
  teams : List Team
  liveMatches : List GameMatch
  history : List Hist
  courseKey : String
  scoresByCourse : String → String → Option (List RawEntry)

/-- Per-hole result record `{aPts, bPts, info, complete}`. -/
structure HoleResult where
  aPts : ℚ
  bPts : ℚ
  info : String
  complete : Bool
  deriving DecidableEq

/-- `getScore(pid, h)` of the live path: `""`/`null`/`undefined` and
non-numeric strings all give `NaN` (here `none`); a numeric cell gives
its value. -/
def getScore (st : LiveState) (pid : String) (h : ℕ) : Option ℚ :=
  match st.scoresByCourse st.courseKey pid with
  | none => none
  | some row =>
    match row.get? h with
    | none => none
    | some RawEntry.empty => none
    | some RawEntry.nonNum => none
    | some (RawEntry.num n) => some n

/-- `getHistScore(hist, pid, h)`: the archive path applies `Number(v)`
directly, so a missing row or cell gives `NaN` (`none`), a non-numeric
string gives `NaN`, but an EMPTY cell gives `Number("") = 0`. -/
def getHistScore (hist : Hist) (pid : String) (h : ℕ) : Option ℚ :=
  match hist.scores pid with
  | none => none
  | some row =>
    match row.get? h with
    | none => none
    | some RawEntry.empty => some 0
    | some RawEntry.nonNum => none
    | some (RawEntry.num n) => some n

/-- Stableford per-player points `sp(sc, par)`; a missing par (JS
`parArray[h] === undefined`) makes every comparison on `NaN` false, so
the function falls through to `0`. -/
def sp (sc : ℚ) : Option ℚ → ℚ
  | none => 0
  | some p =>
    let d := sc - p
    if d ≤ -3 then 5
    else if d = -2 then 4
    else if d = -1 then 3
    else if d = 0 then 2
    else if d = 1 then 1
    else 0

/-- The mode-dispatch part of the live `computeHole`, reached once both
teams are present, fully rostered, and all four strokes are numeric. -/
def liveModeResult (modeId : String) (sa1 sa2 sb1 sb2 : ℚ)
    (parAtHole : Option ℚ) : HoleResult :=
  if modeId = "bestball" then
    let aBest := min sa1 sa2
    let bBest := min sb1 sb2
    if aBest < bBest then
      ⟨1, 0, "A best " ++ toString aBest ++ " beats " ++ toString bBest, true⟩
    else if bBest < aBest then
      ⟨0, 1, "B best " ++ toString bBest ++ " beats " ++ toString aBest, true⟩
    else ⟨0.5, 0.5, "Push", true⟩
  else if modeId = "aggregate" then
    let aTot := sa1 + sa2
    let bTot := sb1 + sb2
    if aTot < bTot then
      ⟨1, 0, "A " ++ toString aTot ++ " vs " ++ toString bTot, true⟩
    else if bTot < aTot then
      ⟨0, 1, "B " ++ toString bTot ++ " vs " ++ toString aTot, true⟩
    else ⟨0.5, 0.5, "Push", true⟩
  else if modeId = "highlow" then
    let aLow := min sa1 sa2
    let aHigh := max sa1 sa2
    let bLow := min sb1 sb2
    let bHigh := max sb1 sb2
    let lowPts : ℚ × ℚ :=
      if aLow < bLow then (1, 0) else if bLow < aLow then (0, 1) else (0.5, 0.5)
    let highPts : ℚ × ℚ :=
      if aHigh < bHigh then (1, 0) else if bHigh < aHigh then (0, 1) else (0.5, 0.5)
    ⟨lowPts.1 + highPts.1, lowPts.2 + highPts.2,
      "Low " ++ toString aLow ++ "/" ++ toString bLow ++
        ", High " ++ toString aHigh ++ "/" ++ toString bHigh, true⟩
  else if modeId = "captainmate" then
    let capPts : ℚ × ℚ :=
      if sa1 < sb1 then (1, 0) else if sb1 < sa1 then (0, 1) else (0.5, 0.5)
    let matePts : ℚ × ℚ :=
      if sa2 < sb2 then (1, 0) else if sb2 < sa2 then (0, 1) else (0.5, 0.5)
    ⟨capPts.1 + matePts.1, capPts.2 + matePts.2,
      "Cap " ++ toString sa1 ++ "/" ++ toString sb1 ++
        ", Mate " ++ toString sa2 ++ "/" ++ toString sb2, true⟩
  else if modeId = "stableford" then
    let aPtsS := sp sa1 parAtHole + sp sa2 parAtHole
    let bPtsS := sp sb1 parAtHole + sp sb2 parAtHole
    if aPtsS > bPtsS then
      ⟨1, 0, "Stableford " ++ toString aPtsS ++ "-" ++ toString bPtsS, true⟩
    else if bPtsS > aPtsS then
      ⟨0, 1, "Stableford " ++ toString bPtsS ++ "-" ++ toString aPtsS, true⟩
    else ⟨0.5, 0.5,
      "Stableford " ++ toString aPtsS ++ "-" ++ toString bPtsS ++ " (push)", true⟩
  else if modeId = "skins" then
    let aBest := min sa1 sa2
    let bBest := min sb1 sb2
    if aBest < bBest then
      ⟨1, 0, "Skin A (" ++ toString aBest ++ " vs " ++ toString bBest ++ ")", true⟩
    else if bBest < aBest then
      ⟨0, 1, "Skin B (" ++ toString bBest ++ " vs " ++ toString aBest ++ ")", true⟩
    else ⟨0, 0, "Skin halved", true⟩
  else ⟨0, 0, "Unknown mode", false⟩

/-- JS destructuring slot: `playerIds[i]`, with a missing slot collapsing
to the falsy `""` used by the `!a1` roster check. -/
def slotId (t : Team) (i : ℕ) : String := (t.playerIds.get? i).getD ""

/-- `computeHole(modeId, h, A, B, parArray)` of the live path. -/
def computeHole (st : LiveState) (modeId : String) (h : ℕ)
    (A B : Option Team) (parArray : List ℚ) : HoleResult :=
  match A, B with
  | some tA, some tB =>
    if slotId tA 0 = "" ∨ slotId tA 1 = "" ∨ slotId tB 0 = "" ∨ slotId tB 1 = "" then
      ⟨0, 0, "Both teams need two players", false⟩
    else
      match getScore st (slotId tA 0) h, getScore st (slotId tA 1) h,
            getScore st (slotId tB 0) h, getScore st (slotId tB 1) h with
      | some sa1, some sa2, some sb1, some sb2 =>
        liveModeResult modeId sa1 sa2 sb1 sb2 (parArray.get? h)
      | _, _, _, _ => ⟨0, 0, "Waiting for scores", false⟩
  | _, _ => ⟨0, 0, "Pick two teams", false⟩

/-- The mode-dispatch part of `computeHoleHist` (same rule table, empty
info strings, same unknown-mode fall-through). -/
def histModeResult (modeId : String) (sa1 sa2 sb1 sb2 : ℚ)
    (parAtHole : Option ℚ) : HoleResult :=
  if modeId = "bestball" then
    let aBest := min sa1 sa2
    let bBest := min sb1 sb2
    if aBest < bBest then ⟨1, 0, "", true⟩
    else if bBest < aBest then ⟨0, 1, "", true⟩
    else ⟨0.5, 0.5, "", true⟩
  else if modeId = "aggregate" then
    let aTot := sa1 + sa2
    let bTot := sb1 + sb2
    if aTot < bTot then ⟨1, 0, "", true⟩
    else if bTot < aTot then ⟨0, 1, "", true⟩
    else ⟨0.5, 0.5, "", true⟩
  else if modeId = "highlow" then
    let aLow := min sa1 sa2
    let aHigh := max sa1 sa2
    let bLow := min sb1 sb2
    let bHigh := max sb1 sb2
    let lowPts : ℚ × ℚ :=
      if aLow < bLow then (1, 0) else if bLow < aLow then (0, 1) else (0.5, 0.5)
    let highPts : ℚ × ℚ :=
      if aHigh < bHigh then (1, 0) else if bHigh < aHigh then (0, 1) else (0.5, 0.5)
    ⟨lowPts.1 + highPts.1, lowPts.2 + highPts.2, "", true⟩
  else if modeId = "captainmate" then
    let capPts : ℚ × ℚ :=
      if sa1 < sb1 then (1, 0) else if sb1 < sa1 then (0, 1) else (0.5, 0.5)
    let matePts : ℚ × ℚ :=
      if sa2 < sb2 then (1, 0) else if sb2 < sa2 then (0, 1) else (0.5, 0.5)
    ⟨capPts.1 + matePts.1, capPts.2 + matePts.2, "", true⟩
  else if modeId = "stableford" then
    let aPtsS := sp sa1 parAtHole + sp sa2 parAtHole
    let bPtsS := sp sb1 parAtHole + sp sb2 parAtHole
    if aPtsS > bPtsS then ⟨1, 0, "", true⟩
    else if bPtsS > aPtsS then ⟨0, 1, "", true⟩
    else ⟨0.5, 0.5, "", true⟩
  else if modeId = "skins" then
    let aBest := min sa1 sa2
    let bBest := min sb1 sb2
    if aBest < bBest then ⟨1, 0, "", true⟩
    else if bBest < aBest then ⟨0, 1, "", true⟩
    else ⟨0, 0, "", true⟩
  else ⟨0, 0, "", false⟩

/-- Snapshot slot, with the same missing-slot-to-`""` collapse. -/
def snapSlotId (t : TeamSnap) (i : ℕ) : String := (t.playerIds.get? i).getD ""

/-- `(COURSES.find(c => c.key === ck)?.par) || COURSES[0].par`. -/
def parArrayFor (ck : String) : List ℚ :=
  match COURSES.find? (fun c => c.key = ck) with
  | some c => c.par
  | none => COURSES.headI.par

/-- `computeHoleHist(hist, h)`.  The function is declared inside the App
closure, so it gets the live state as a (syntactically unused) argument;
its body reads only the archive entry and the static course table. -/
def computeHoleHist (st : LiveState) (hist : Hist) (h : ℕ) : HoleResult :=
  let _ := st
  let parArray := parArrayFor hist.courseKey
  if snapSlotId hist.teamA 0 = "" ∨ snapSlotId hist.teamA 1 = "" ∨
     snapSlotId hist.teamB 0 = "" ∨ snapSlotId hist.teamB 1 = "" then
    ⟨0, 0, "—", false⟩
  else
    match getHistScore hist (snapSlotId hist.teamA 0) h,
          getHistScore hist (snapSlotId hist.teamA 1) h,
          getHistScore hist (snapSlotId hist.teamB 0) h,
          getHistScore hist (snapSlotId hist.teamB 1) h with
    | some sa1, some sa2, some sb1, some sb2 =>
      histModeResult hist.mode sa1 sa2 sb1 sb2 (parArray.get? h)
    | _, _, _, _ => ⟨0, 0, "—", false⟩

/-- The `carry ? \x28carry N\x29 : ""` description suffix. -/
def carrySuffix (carry : ℕ) : String :=
  if carry = 0 then "" else " (carry " ++ toString carry ++ ")"

/-- The body of `applySkinsCarry`: a map with one mutable `carry`
accumulator, i.e. a left-to-right stateful traversal. -/
def applySkinsCarryGo (carry : ℕ) : List HoleResult → List HoleResult
  | [] => []
  | r :: rest =>
    if r.complete = false then
      { r with aPts := 0, bPts := 0, info := r.info ++ carrySuffix carry } ::
        applySkinsCarryGo carry rest
    else if r.aPts = 0 ∧ r.bPts = 0 then
      { r with aPts := 0, bPts := 0, info := "Skin halved" ++ carrySuffix (carry + 1) } ::
        applySkinsCarryGo (carry + 1) rest
    else if r.aPts > r.bPts then
      { r with aPts := (carry : ℚ) + 1, bPts := 0, info := "Skin A x" ++ toString (carry + 1) } ::
        applySkinsCarryGo 0 rest
    else if r.bPts > r.aPts then
      { r with aPts := 0, bPts := (carry : ℚ) + 1, info := "Skin B x" ++ toString (carry + 1) } ::
        applySkinsCarryGo 0 rest
    else r :: applySkinsCarryGo carry rest

/-- `applySkinsCarry(perHole)` — carry starts at 0 before hole 1. -/
def applySkinsCarry (perHole : List HoleResult) : List HoleResult :=
  applySkinsCarryGo 0 perHole

/-- The body of `applySkinsCarryHist` (identical carry logic, no
description rewriting). -/
def applySkinsCarryHistGo (carry : ℕ) : List HoleResult → List HoleResult
  | [] => []
  | r :: rest =>
    if r.complete = false then
      { r with aPts := 0, bPts := 0 } :: applySkinsCarryHistGo carry rest
    else if r.aPts = 0 ∧ r.bPts = 0 then
      { r with aPts := 0, bPts := 0 } :: applySkinsCarryHistGo (carry + 1) rest
    else if r.aPts > r.bPts then
      { r with aPts := (carry : ℚ) + 1, bPts := 0 } :: applySkinsCarryHistGo 0 rest
    else if r.bPts > r.aPts then
      { r with aPts := 0, bPts := (carry : ℚ) + 1 } :: applySkinsCarryHistGo 0 rest
    else r :: applySkinsCarryHistGo carry rest

/-- `applySkinsCarryHist(perHole)`. -/
def applySkinsCarryHist (perHole : List HoleResult) : List HoleResult :=
  applySkinsCarryHistGo 0 perHole

/-- The 18 replayed hole results of an archive, post carry transform when
the archived mode is skins — the sequence the history view, exports and
the record aggregator all consume. -/
def histPerHole (st : LiveState) (h : Hist) : List HoleResult :=
  let per := (List.range 18).map (fun i => computeHoleHist st h i)
  if h.mode = "skins" then applySkinsCarryHist per else per

/-- `per.reduce((acc,r) => {a: acc.a+r.aPts, b: acc.b+r.bPts}, {a:0,b:0})`. -/
def histTotals (per : List HoleResult) : ℚ × ℚ :=
  per.foldl (fun acc r => (acc.1 + r.aPts, acc.2 + r.bPts)) (0, 0)

/-- One team's win/loss/tie counters of the Records section. -/
structure WLT where
  w : ℕ
  l : ℕ
  t : ℕ
  deriving DecidableEq

/-- One iteration of the Records loop body for team id `tid` over archive
`h`: skip unless all 18 replayed holes are complete, then compare totals
and bump the counters of an involved team. -/
def recordStep (st : LiveState) (tid : String) (acc : WLT) (h : Hist) : WLT :=
  let per := histPerHole st h
  if !(per.all (fun r => r.complete)) then acc
  else
    let totals := histTotals per
    let aIs := h.teamA.id = tid
    let bIs := h.teamB.id = tid
    if aIs ∨ bIs then
      if totals.1 > totals.2 then
        ⟨acc.w + (if aIs then 1 else 0), acc.l + (if bIs then 1 else 0), acc.t⟩
      else if totals.2 > totals.1 then
        ⟨acc.w + (if bIs then 1 else 0), acc.l + (if aIs then 1 else 0), acc.t⟩
      else ⟨acc.w, acc.l, acc.t + 1⟩
    else acc

/-- The full Records scan for one team id: fold the loop body over the
archive list starting from `0-0-0`. -/
def teamRecord (st : LiveState) (tid : String) : WLT :=
  st.history.foldl (recordStep st tid) ⟨0, 0, 0⟩

/-- Player name recovered during restore:
`(snapshot playerNames at indexOf pid) || "Player"`. -/
def snapNameFor (h : Hist) (pid : String) : String :=
  let n :=
    if h.teamA.playerIds.contains pid then
      match h.teamA.playerIds.indexOf? pid with
      | some i => (h.teamA.playerNames.get? i).getD ""
      | none => ""
    else
      match h.teamB.playerIds.indexOf? pid with
      | some i => (h.teamB.playerNames.get? i).getD ""
      | none => ""
  if n = "" then "Player" else n

/-- The "ensure players exist" loop of `restoreHistory`. -/
def restorePlayers (ps : List Player) (h : Hist) (allIds : List String) :
    List Player :=
  allIds.foldl (fun acc pid =>
    if (acc.find? (fun p => p.id = pid)).isSome then acc
    else acc ++ [⟨pid, snapNameFor h pid⟩]) ps

/-- The `ensureTeam` helper of `restoreHistory`: re-create the team under
its original id, or overwrite an existing team of that id with the
snapshot name and player slots. -/
def ensureTeam (ts : List Team) (t : TeamSnap) : List Team :=
  if (ts.find? (fun x => x.id = t.id)).isSome then
    ts.map (fun x => if x.id = t.id then ⟨x.id, t.name, t.playerIds⟩ else x)
  else ts ++ [⟨t.id, t.name, t.playerIds⟩]

/-- `restoreHistory(hid)` on an in-memory archive entry: re-create the
players and teams with their original ids, overwrite the live score rows
of the archive's course for the archived players with the snapshot
(missing snapshot rows fall back to `empty18`), switch to the archive's
course and append a fresh live match.  The fresh `uid()` of the new match
is passed in as `newMatchId`. -/
def restoreHistory (newMatchId : String) (st : LiveState) (h : Hist) :
    LiveState :=
  let allIds := h.teamA.playerIds ++ h.teamB.playerIds
  let nextScores : String → String → Option (List RawEntry) := fun ck pid =>
    if ck = h.courseKey ∧ allIds.contains pid then
      some ((h.scores pid).getD empty18)
    else st.scoresByCourse ck pid
  { st with
    players := restorePlayers st.players h allIds
    teams := ensureTeam (ensureTeam st.teams h.teamA) h.teamB
    liveMatches := st.liveMatches ++ [⟨newMatchId, h.teamA.id, h.teamB.id, h.mode⟩]
    scoresByCourse := nextScores
    courseKey := h.courseKey }

/-- `teams.find(t => t.id === tid)` of the live scorecard rendering. -/
def findTeam (st : LiveState) (tid : String) : Option Team :=
  st.teams.find? (fun t => t.id = tid)

/-- `parArr` of the render: par row of the selected course, course 0 as
fallback. -/
def liveParArray (st : LiveState) : List ℚ := parArrayFor st.courseKey

/-! ### Observation helpers used by the theorem statements -/

/-- The two point values of a hole result. -/
def pointsOf (r : HoleResult) : ℚ × ℚ := (r.aPts, r.bPts)

/-- Total points over a result sequence, both sides summed. -/
def pointsTotal (l : List HoleResult) : ℚ :=
  (l.map (fun r => r.aPts + r.bPts)).sum

/-- A decisive pre-carry skins result: the two base points differ. -/
def isDecisive (r : HoleResult) : Bool := r.aPts != r.bPts

/-- Length of the maximal all-tied suffix of a result sequence, i.e. the
holes after the last decisive hole (the whole list when no hole is
decisive). -/
def trailingTies : List HoleResult → ℕ
  | [] => 0
  | r :: rest =>
    if (r :: rest).any isDecisive then trailingTies rest else rest.length + 1

/-- Shape of the pre-carry per-hole results the skins branch of
`computeHole` can emit: a complete hole carries base points `1-0`, `0-1`
or `0-0`. -/
def skinsShaped (r : HoleResult) : Prop :=
  r.complete = true →
    pointsOf r = (1, 0) ∨ pointsOf r = (0, 1) ∨ pointsOf r = (0, 0)

instance (r : HoleResult) : Decidable (skinsShaped r) := by
  unfold skinsShaped; infer_instance

/-- All three gates of the live `computeHole` pass: both teams have two
filled slots and all four strokes for the hole are numeric. -/
def gatesPass (st : LiveState) (h : ℕ) (tA tB : Team)
    (sa1 sa2 sb1 sb2 : ℚ) : Prop :=
  slotId tA 0 ≠ "" ∧ slotId tA 1 ≠ "" ∧ slotId tB 0 ≠ "" ∧ slotId tB 1 ≠ "" ∧
  getScore st (slotId tA 0) h = some sa1 ∧
  getScore st (slotId tA 1) h = some sa2 ∧
  getScore st (slotId tB 0) h = some sb1 ∧
  getScore st (slotId tB 1) h = some sb2

instance (st : LiveState) (h : ℕ) (tA tB : Team) (sa1 sa2 sb1 sb2 : ℚ) :
    Decidable (gatesPass st h tA tB sa1 sa2 sb1 sb2) := by
  unfold gatesPass; infer_instance

/-! ### Spec-side definitions (used for refinement-style claims only) -/

/-- The skins carry step exactly as the spec words it (§4.2): one integer
accumulator, per hole either keep the carry (incomplete), bump it
(complete halved), or pay `carry + 1` to the strictly-better side and
reset.  Only the point pair of each hole is specified. -/
def skinsSpecStep (s : ℕ × List (ℚ × ℚ)) (r : HoleResult) :
    ℕ × List (ℚ × ℚ) :=
  if r.complete = false then (s.1, s.2 ++ [(0, 0)])
  else if r.aPts = 0 ∧ r.bPts = 0 then (s.1 + 1, s.2 ++ [(0, 0)])
  else if r.aPts > r.bPts then (0, s.2 ++ [((s.1 : ℚ) + 1, 0)])
  else (0, s.2 ++ [(0, (s.1 : ℚ) + 1)])

/-- The spec's sequential left-to-right fold over the per-hole results,
carry initialized to 0 before hole 1. -/
def skinsSpecFold (l : List HoleResult) : List (ℚ × ℚ) :=
  (l.foldl skinsSpecStep (0, [])).2

/-- The stableford table exactly as the spec states it, total on integer
stroke-minus-par differences with no breakpoints besides the six listed. -/
def stablefordSpecTable (d : ℤ) : ℚ :=
  if d ≤ -3 then 5
  else if d = -2 then 4
  else if d = -1 then 3
  else if d = 0 then 2
  else if d = 1 then 1
  else 0

/-! ### Concrete fixtures for witnesses and counterexamples -/

/-- An 18-cell row filled with one numeric value. -/
def rowOf (q : ℚ) : List RawEntry := List.replicate 18 (RawEntry.num q)

def tAW : Team := ⟨"TA", "Alpha", ["a1", "a2"]⟩

def tBW : Team := ⟨"TB", "Beta", ["b1", "b2"]⟩

def scoresW : String → String → Option (List RawEntry) := fun ck pid =>
  if ck = "hiawatha" then
    if pid = "a1" then some (rowOf 4)
    else if pid = "a2" then some (rowOf 5)
    else if pid = "b1" then some (rowOf 4)
    else if pid = "b2" then some (rowOf 6)
    else none
  else none

/-- A live state with four rostered players and fully numeric scores. -/
def stW : LiveState :=
  ⟨[⟨"a1", "Amy"⟩, ⟨"a2", "Al"⟩, ⟨"b1", "Bo"⟩, ⟨"b2", "Bea"⟩],
    [tAW, tBW], [], [], "hiawatha", scoresW⟩

def snapA : TeamSnap := ⟨"TA", "Alpha", ["a1", "a2"], ["Amy", "Al"]⟩

def snapB : TeamSnap := ⟨"TB", "Beta", ["b1", "b2"], ["Bo", "Bea"]⟩

/-- An archive whose snapshot holds an EMPTY cell for player `a1` at
hole 1 and numeric cells everywhere else. -/
def histBug : Hist :=
  ⟨"h1", 0, "bug", "hiawatha", "bestball", snapA, snapB, fun pid =>
    if pid = "a1" then some (RawEntry.empty :: List.replicate 17 (RawEntry.num 4))
    else if pid = "a2" then some (rowOf 4)
    else if pid = "b1" then some (rowOf 5)
    else if pid = "b2" then some (rowOf 5)
    else none⟩

/-- A fully numeric archived best-ball match that team `TA` wins 18-0. -/
def histFull : Hist :=
  ⟨"h2", 0, "full", "hiawatha", "bestball", snapA, snapB, fun pid =>
    if pid = "a1" then some (rowOf 4)
    else if pid = "a2" then some (rowOf 5)
    else if pid = "b1" then some (rowOf 5)
    else if pid = "b2" then some (rowOf 6)
    else none⟩

/-- Like `histFull` but with a non-numeric cell at hole 1 for `a1`:
17 replayed holes complete, 1 incomplete. -/
def histAlmost : Hist :=
  ⟨"h3", 0, "partial", "hiawatha", "bestball", snapA, snapB, fun pid =>
    if pid = "a1" then some (RawEntry.nonNum :: List.replicate 17 (RawEntry.num 4))
    else if pid = "a2" then some (rowOf 5)
    else if pid = "b1" then some (rowOf 5)
    else if pid = "b2" then some (rowOf 6)
    else none⟩

/-- A bare live state whose archive list holds only `histBug`. -/
def st0 : LiveState := ⟨[], [], [], [histBug], "hiawatha", fun _ _ => none⟩

/-- A live state whose score rows for the current course are exactly the
`histBug` snapshot rows, for comparing the live and archive gates on the
same data. -/
def stBug : LiveState :=
  ⟨[⟨"a1", "Amy"⟩, ⟨"a2", "Al"⟩, ⟨"b1", "Bo"⟩, ⟨"b2", "Bea"⟩],
    [tAW, tBW], [], [histBug], "hiawatha",
    fun ck pid => if ck = "hiawatha" then histBug.scores pid else none⟩

/-- A live state holding the `histFull` and `histAlmost` archives. -/
def stH : LiveState :=
  ⟨[], [tAW, tBW], [], [histFull, histAlmost], "hiawatha", fun _ _ => none⟩

/-! ### Helper lemmas -/

lemma computeHole_eq_mode (st : LiveState) (modeId : String) (h : ℕ)
    (tA tB : Team) (par : List ℚ) (sa1 sa2 sb1 sb2 : ℚ)
    (hg : gatesPass st h tA tB sa1 sa2 sb1 sb2) :
    computeHole st modeId h (some tA) (some tB) par =
      liveModeResult modeId sa1 sa2 sb1 sb2 (par.get? h) := by
  obtain ⟨h1, h2, h3, h4, e1, e2, e3, e4⟩ := hg
  simp only [computeHole]
  rw [if_neg (by tauto), e1, e2, e3, e4]

lemma computeHole_complete_elim (st : LiveState) (modeId : String) (h : ℕ)
    (A B : Option Team) (par : List ℚ)
    (hc : (computeHole st modeId h A B par).complete = true) :
    ∃ tA tB sa1 sa2 sb1 sb2, A = some tA ∧ B = some tB ∧
      gatesPass st h tA tB sa1 sa2 sb1 sb2 ∧
      computeHole st modeId h A B par =
        liveModeResult modeId sa1 sa2 sb1 sb2 (par.get? h) := by
  cases A with
  | none => simp [computeHole] at hc
  | some tA =>
    cases B with
    | none => simp [computeHole] at hc
    | some tB =>
      by_cases hs : slotId tA 0 = "" ∨ slotId tA 1 = "" ∨
          slotId tB 0 = "" ∨ slotId tB 1 = ""
      · simp [computeHole, if_pos hs] at hc
      · rcases e1 : getScore st (slotId tA 0) h with _ | sa1
        · simp [computeHole, if_neg hs, e1] at hc
        · rcases e2 : getScore st (slotId tA 1) h with _ | sa2
          · simp [computeHole, if_neg hs, e1, e2] at hc
          · rcases e3 : getScore st (slotId tB 0) h with _ | sb1
            · simp [computeHole, if_neg hs, e1, e2, e3] at hc
            · rcases e4 : getScore st (slotId tB 1) h with _ | sb2
              · simp [computeHole, if_neg hs, e1, e2, e3, e4] at hc
              · push_neg at hs
                exact ⟨tA, tB, sa1, sa2, sb1, sb2, rfl, rfl,
                  ⟨hs.1, hs.2.1, hs.2.2.1, hs.2.2.2, e1, e2, e3, e4⟩,
                  by simp only [computeHole]; rw [if_neg (by tauto), e1, e2, e3, e4]⟩

lemma liveModeResult_sum (modeId : String) (sa1 sa2 sb1 sb2 : ℚ)
    (p : Option ℚ) :
    ((modeId = "bestball" ∨ modeId = "aggregate" ∨ modeId = "stableford") →
      (liveModeResult modeId sa1 sa2 sb1 sb2 p).aPts +
        (liveModeResult modeId sa1 sa2 sb1 sb2 p).bPts = 1) ∧
    ((modeId = "highlow" ∨ modeId = "captainmate") →
      (liveModeResult modeId sa1 sa2 sb1 sb2 p).aPts +
        (liveModeResult modeId sa1 sa2 sb1 sb2 p).bPts = 2) ∧
    (modeId = "skins" →
      (liveModeResult modeId sa1 sa2 sb1 sb2 p).aPts +
          (liveModeResult modeId sa1 sa2 sb1 sb2 p).bPts = 0 ∨
        (liveModeResult modeId sa1 sa2 sb1 sb2 p).aPts +
          (liveModeResult modeId sa1 sa2 sb1 sb2 p).bPts = 1) := by
  refine ⟨?_, ?_, ?_⟩
  · rintro (rfl | rfl | rfl) <;>
      · simp +decide only [liveModeResult, if_true, if_false]
        split_ifs <;> norm_num
  · rintro (rfl | rfl) <;>
      · simp +decide only [liveModeResult, if_true, if_false]
        split_ifs <;> norm_num
  · rintro rfl
    simp +decide only [liveModeResult, if_true, if_false]
    split_ifs <;> norm_num

lemma sp_intCast (sc p : ℤ) :
    sp (sc : ℚ) (some (p : ℚ)) = stablefordSpecTable (sc - p) := by
  have hd : (sc : ℚ) - (p : ℚ) = ((sc - p : ℤ) : ℚ) := by push_cast; ring
  simp only [sp, hd, stablefordSpecTable]
  generalize sc - p = d
  have c1 : (((d : ℤ) : ℚ) ≤ -3) ↔ (d ≤ -3) := by exact_mod_cast Iff.rfl
  have c2 : (((d : ℤ) : ℚ) = -2) ↔ (d = -2) := by exact_mod_cast Iff.rfl
  have c3 : (((d : ℤ) : ℚ) = -1) ↔ (d = -1) := by exact_mod_cast Iff.rfl
  have c4 : (((d : ℤ) : ℚ) = 0) ↔ (d = 0) := by exact_mod_cast Iff.rfl
  have c5 : (((d : ℤ) : ℚ) = 1) ↔ (d = 1) := by exact_mod_cast Iff.rfl
  simp only [c1, c2, c3, c4, c5]

/-- Mirror a hole result: exchange the two sides' points. -/
def swapResult (r : HoleResult) : HoleResult :=
  { r with aPts := r.bPts, bPts := r.aPts }

lemma liveModeResult_swap (modeId : String) (sa1 sa2 sb1 sb2 : ℚ)
    (p : Option ℚ) :
    (liveModeResult modeId sb1 sb2 sa1 sa2 p).aPts =
        (liveModeResult modeId sa1 sa2 sb1 sb2 p).bPts ∧
      (liveModeResult modeId sb1 sb2 sa1 sa2 p).bPts =
        (liveModeResult modeId sa1 sa2 sb1 sb2 p).aPts ∧
      (liveModeResult modeId sb1 sb2 sa1 sa2 p).complete =
        (liveModeResult modeId sa1 sa2 sb1 sb2 p).complete := by
  by_cases m1 : modeId = "bestball"
  · subst m1
    simp +decide only [liveModeResult, if_true, if_false]
    refine ⟨?_, ?_, ?_⟩ <;> (try split_ifs) <;> first | trivial | linarith
  by_cases m2 : modeId = "aggregate"
  · subst m2
    simp +decide only [liveModeResult, if_true, if_false]
    refine ⟨?_, ?_, ?_⟩ <;> (try split_ifs) <;> first | trivial | linarith
  by_cases m3 : modeId = "highlow"
  · subst m3
    simp +decide only [liveModeResult, if_true, if_false]
    refine ⟨?_, ?_, ?_⟩ <;> (try split_ifs) <;> first | trivial | linarith
  by_cases m4 : modeId = "captainmate"
  · subst m4
    simp +decide only [liveModeResult, if_true, if_false]
    refine ⟨?_, ?_, ?_⟩ <;> (try split_ifs) <;> first | trivial | linarith
  by_cases m5 : modeId = "stableford"
  · subst m5
    simp +decide only [liveModeResult, if_true, if_false]
    refine ⟨?_, ?_, ?_⟩ <;> (try split_ifs) <;> first | trivial | linarith
  by_cases m6 : modeId = "skins"
  · subst m6
    simp +decide only [liveModeResult, if_true, if_false]
    refine ⟨?_, ?_, ?_⟩ <;> (try split_ifs) <;> first | trivial | linarith
  · simp only [liveModeResult, if_neg m1, if_neg m2, if_neg m3, if_neg m4,
      if_neg m5, if_neg m6]
    refine ⟨?_, ?_, ?_⟩ <;> trivial

lemma computeHole_swap (st : LiveState) (modeId : String) (h : ℕ)
    (A B : Option Team) (par : List ℚ) :
    pointsOf (computeHole st modeId h B A par) =
        Prod.swap (pointsOf (computeHole st modeId h A B par)) ∧
      (computeHole st modeId h B A par).complete =
        (computeHole st modeId h A B par).complete := by
  cases A with
  | none => cases B <;> exact ⟨rfl, rfl⟩
  | some tA =>
    cases B with
    | none => exact ⟨rfl, rfl⟩
    | some tB =>
      by_cases hs : slotId tA 0 = "" ∨ slotId tA 1 = "" ∨
          slotId tB 0 = "" ∨ slotId tB 1 = ""
      · have hs' : slotId tB 0 = "" ∨ slotId tB 1 = "" ∨
            slotId tA 0 = "" ∨ slotId tA 1 = "" := by tauto
        simp only [computeHole]
        rw [if_pos hs, if_pos hs']
        exact ⟨rfl, rfl⟩
      · have hs' : ¬(slotId tB 0 = "" ∨ slotId tB 1 = "" ∨
            slotId tA 0 = "" ∨ slotId tA 1 = "") := by tauto
        simp only [computeHole]
        rw [if_neg hs, if_neg hs']
        rcases e1 : getScore st (slotId tA 0) h with _ | sa1 <;>
          rcases e2 : getScore st (slotId tA 1) h with _ | sa2 <;>
            rcases e3 : getScore st (slotId tB 0) h with _ | sb1 <;>
              rcases e4 : getScore st (slotId tB 1) h with _ | sb2 <;>
                simp only [e1, e2, e3, e4]
        all_goals try exact ⟨rfl, trivial⟩
        obtain ⟨ha, hb, hc⟩ := liveModeResult_swap modeId sa1 sa2 sb1 sb2 (par.get? h)
        refine ⟨?_, hc⟩
        simp only [pointsOf, Prod.swap, ha, hb]

lemma applySkinsCarryGo_cons (carry : ℕ) (r : HoleResult)
    (rest : List HoleResult) :
    applySkinsCarryGo carry (r :: rest) =
      if r.complete = false then
        { r with aPts := 0, bPts := 0, info := r.info ++ carrySuffix carry } ::
          applySkinsCarryGo carry rest
      else if r.aPts = 0 ∧ r.bPts = 0 then
        { r with aPts := 0, bPts := 0, info := "Skin halved" ++ carrySuffix (carry + 1) } ::
          applySkinsCarryGo (carry + 1) rest
      else if r.aPts > r.bPts then
        { r with aPts := (carry : ℚ) + 1, bPts := 0, info := "Skin A x" ++ toString (carry + 1) } ::
          applySkinsCarryGo 0 rest
      else if r.bPts > r.aPts then
        { r with aPts := 0, bPts := (carry : ℚ) + 1, info := "Skin B x" ++ toString (carry + 1) } ::
          applySkinsCarryGo 0 rest
      else r :: applySkinsCarryGo carry rest := rfl

lemma applySkinsCarryGo_swap (carry : ℕ) (l : List HoleResult) :
    (applySkinsCarryGo carry (l.map swapResult)).map
        (fun r => (r.aPts, r.bPts, r.complete)) =
      (applySkinsCarryGo carry l).map
        (fun r => (r.bPts, r.aPts, r.complete)) := by
  induction l generalizing carry with
  | nil => rfl
  | cons r rest ih =>
    rw [List.map_cons, applySkinsCarryGo_cons, applySkinsCarryGo_cons]
    simp only [swapResult]
    by_cases hc : r.complete = false
    · rw [if_pos hc, if_pos hc]
      simp [swapResult, ih carry]
    · by_cases hz : r.aPts = 0 ∧ r.bPts = 0
      · have hz2 : r.bPts = 0 ∧ r.aPts = 0 := ⟨hz.2, hz.1⟩
        rw [if_neg hc, if_neg hc, if_pos hz2, if_pos hz]
        simp [swapResult, ih (carry + 1)]
      · have hz2 : ¬(r.bPts = 0 ∧ r.aPts = 0) := fun hcon => hz ⟨hcon.2, hcon.1⟩
        rcases lt_trichotomy r.aPts r.bPts with hlt | heq | hlt
        · rw [if_neg hc, if_neg hc, if_neg hz2, if_neg hz,
            if_pos hlt, if_neg (lt_asymm hlt), if_pos hlt]
          simp [swapResult, ih 0]
        · have hn1 : ¬(r.bPts < r.aPts) := by rw [heq]; exact lt_irrefl _
          have hn2 : ¬(r.aPts < r.bPts) := by rw [heq]; exact lt_irrefl _
          rw [if_neg hc, if_neg hc, if_neg hz2, if_neg hz,
            if_neg hn2, if_neg hn1, if_neg hn1, if_neg hn2]
          simp [swapResult, ih carry]
        · rw [if_neg hc, if_neg hc, if_neg hz2, if_neg hz,
            if_neg (lt_asymm hlt), if_pos hlt, if_pos hlt]
          simp [swapResult, ih 0]

lemma pointsTotal_cons (x : HoleResult) (xs : List HoleResult) :
    pointsTotal (x :: xs) = x.aPts + x.bPts + pointsTotal xs := by
  simp [pointsTotal]

lemma trailingTies_le (l : List HoleResult) : trailingTies l ≤ l.length := by
  induction l with
  | nil => simp [trailingTies]
  | cons r rest ih =>
    rw [trailingTies]
    split_ifs
    · exact le_trans ih (by simp)
    · simp

lemma trailingTies_eq_length_of_no_decisive (l : List HoleResult)
    (h : l.any isDecisive = false) : trailingTies l = l.length := by
  cases l with
  | nil => rfl
  | cons r rest =>
    rw [trailingTies, if_neg (by simp [h])]
    simp

lemma foldl_skinsSpecStep_eq (l : List HoleResult) :
    (∀ r ∈ l, skinsShaped r) → ∀ (carry : ℕ) (acc : List (ℚ × ℚ)),
      (l.foldl skinsSpecStep (carry, acc)).2 =
        acc ++ (applySkinsCarryGo carry l).map pointsOf := by
  induction l with
  | nil =>
    intro _ carry acc
    simp [applySkinsCarryGo]
  | cons r rest ih =>
    intro hl carry acc
    have hr : skinsShaped r := hl r (List.mem_cons_self r rest)
    have hrest : ∀ x ∈ rest, skinsShaped x :=
      fun x hx => hl x (List.mem_cons_of_mem r hx)
    rw [List.foldl_cons, applySkinsCarryGo_cons]
    simp only [skinsSpecStep]
    by_cases hc : r.complete = false
    · rw [if_pos hc, if_pos hc, ih hrest carry (acc ++ [(0, 0)])]
      simp [pointsOf]
    · by_cases hz : r.aPts = 0 ∧ r.bPts = 0
      · rw [if_neg hc, if_neg hc, if_pos hz, if_pos hz,
          ih hrest (carry + 1) (acc ++ [(0, 0)])]
        simp [pointsOf]
      · have hcT : r.complete = true := by
          cases hcomp : r.complete
          · exact absurd hcomp hc
          · rfl
        rcases hr hcT with h10 | h01 | h00
        · simp only [pointsOf, Prod.mk.injEq] at h10
          have hgt : r.aPts > r.bPts := by rw [h10.1, h10.2]; norm_num
          rw [if_neg hc, if_neg hc, if_neg hz, if_neg hz, if_pos hgt, if_pos hgt,
            ih hrest 0 (acc ++ [((carry : ℚ) + 1, 0)])]
          simp [pointsOf]
        · simp only [pointsOf, Prod.mk.injEq] at h01
          have hgt : ¬(r.aPts > r.bPts) := by rw [h01.1, h01.2]; norm_num
          have hlt : r.bPts > r.aPts := by rw [h01.1, h01.2]; norm_num
          rw [if_neg hc, if_neg hc, if_neg hz, if_neg hz, if_neg hgt, if_neg hgt,
            if_pos hlt, ih hrest 0 (acc ++ [(0, (carry : ℚ) + 1)])]
          simp [pointsOf]
        · simp only [pointsOf, Prod.mk.injEq] at h00
          exact absurd ⟨h00.1, h00.2⟩ hz

lemma pointsTotal_applySkinsCarryGo (l : List HoleResult) :
    (∀ r ∈ l, r.complete = true) → (∀ r ∈ l, skinsShaped r) →
    ∀ carry : ℕ,
      pointsTotal (applySkinsCarryGo carry l) =
        if l.any isDecisive then (carry : ℚ) + l.length - trailingTies l
        else 0 := by
  induction l with
  | nil =>
    intro _ _ carry
    simp [applySkinsCarryGo, pointsTotal]
  | cons r rest ih =>
    intro hcl hsl carry
    have hc : r.complete = true := hcl r (List.mem_cons_self r rest)
    have hr : skinsShaped r := hsl r (List.mem_cons_self r rest)
    have hcrest : ∀ x ∈ rest, x.complete = true :=
      fun x hx => hcl x (List.mem_cons_of_mem r hx)
    have hsrest : ∀ x ∈ rest, skinsShaped x :=
      fun x hx => hsl x (List.mem_cons_of_mem r hx)
    rw [applySkinsCarryGo_cons, if_neg (by simp [hc])]
    rcases hr hc with hp | hp | hp <;> simp only [pointsOf, Prod.mk.injEq] at hp
    · -- decisive, A side
      have hgt : r.aPts > r.bPts := by rw [hp.1, hp.2]; norm_num
      have hz : ¬(r.aPts = 0 ∧ r.bPts = 0) := by rw [hp.1]; norm_num
      have hd : isDecisive r = true := by
        simp [isDecisive, hp.1, hp.2]
      rw [if_neg hz, if_pos hgt, pointsTotal_cons, ih hcrest hsrest 0]
      have hany : (r :: rest).any isDecisive = true := by simp [hd]
      have htt : trailingTies (r :: rest) = trailingTies rest := by
        rw [trailingTies, if_pos hany]
      rw [if_pos hany, htt]
      by_cases ha : rest.any isDecisive = true
      · rw [if_pos ha]
        simp only [List.length_cons]
        push_cast
        ring
      · have ha' : rest.any isDecisive = false := by
          cases hq : rest.any isDecisive
          · rfl
          · exact absurd hq ha
        rw [if_neg (by simp [ha']),
          trailingTies_eq_length_of_no_decisive rest ha']
        simp only [List.length_cons]
        push_cast
        ring
    · -- decisive, B side
      have hgt : ¬(r.aPts > r.bPts) := by rw [hp.1, hp.2]; norm_num
      have hlt : r.bPts > r.aPts := by rw [hp.1, hp.2]; norm_num
      have hz : ¬(r.aPts = 0 ∧ r.bPts = 0) := by rw [hp.2]; simp
      have hd : isDecisive r = true := by
        simp [isDecisive, hp.1, hp.2]
      rw [if_neg hz, if_neg hgt, if_pos hlt, pointsTotal_cons, ih hcrest hsrest 0]
      have hany : (r :: rest).any isDecisive = true := by simp [hd]
      have htt : trailingTies (r :: rest) = trailingTies rest := by
        rw [trailingTies, if_pos hany]
      rw [if_pos hany, htt]
      by_cases ha : rest.any isDecisive = true
      · rw [if_pos ha]
        simp only [List.length_cons]
        push_cast
        ring
      · have ha' : rest.any isDecisive = false := by
          cases hq : rest.any isDecisive
          · rfl
          · exact absurd hq ha
        rw [if_neg (by simp [ha']),
          trailingTies_eq_length_of_no_decisive rest ha']
        simp only [List.length_cons]
        push_cast
        ring
    · -- halved
      have hz : r.aPts = 0 ∧ r.bPts = 0 := ⟨hp.1, hp.2⟩
      have hd : isDecisive r = false := by
        simp [isDecisive, hp.1, hp.2]
      rw [if_pos hz, pointsTotal_cons, ih hcrest hsrest (carry + 1)]
      have hany : (r :: rest).any isDecisive = rest.any isDecisive := by
        simp [hd]
      by_cases ha : rest.any isDecisive = true
      · have hanyT : (r :: rest).any isDecisive = true := by rw [hany, ha]
        have htt : trailingTies (r :: rest) = trailingTies rest := by
          rw [trailingTies, if_pos hanyT]
        rw [if_pos ha, if_pos hanyT, htt]
        simp only [List.length_cons]
        push_cast
        ring
      · have ha' : rest.any isDecisive = false := by
          cases hq : rest.any isDecisive
          · rfl
          · exact absurd hq ha
        have hanyF : (r :: rest).any isDecisive = false := by rw [hany, ha']
        rw [if_neg (by simp [ha']), if_neg (by simp [hanyF])]
        simp

/-! ### Claim theorems -/

/-- C2: the live `computeHole` evaluates its gates in order, first match
wins: an absent team reference gives the "Pick two teams" incomplete
result with points 0/0; otherwise an unfilled player slot gives the
"Both teams need two players" incomplete 0/0 result; otherwise a missing
or non-numeric stroke among the four required entries gives the
"Waiting for scores" incomplete 0/0 result — for every mode string and
every hole index, regardless of the other entries. -/
theorem computeHole_gating (st : LiveState) (modeId : String) (h : ℕ)
    (A B : Option Team) (par : List ℚ) :
    ((A = none ∨ B = none) →
      computeHole st modeId h A B par = ⟨0, 0, "Pick two teams", false⟩) ∧
    (∀ tA tB, A = some tA → B = some tB →
      (slotId tA 0 = "" ∨ slotId tA 1 = "" ∨ slotId tB 0 = "" ∨ slotId tB 1 = "") →
      computeHole st modeId h A B par =
        ⟨0, 0, "Both teams need two players", false⟩) ∧
    (∀ tA tB, A = some tA → B = some tB →
      ¬(slotId tA 0 = "" ∨ slotId tA 1 = "" ∨ slotId tB 0 = "" ∨ slotId tB 1 = "") →
      (getScore st (slotId tA 0) h = none ∨ getScore st (slotId tA 1) h = none ∨
       getScore st (slotId tB 0) h = none ∨ getScore st (slotId tB 1) h = none) →
      computeHole st modeId h A B par = ⟨0, 0, "Waiting for scores", false⟩) := by
  refine ⟨?_, ?_, ?_⟩
  · rintro (rfl | rfl)
    · cases B <;> rfl
    · cases A <;> rfl
  · rintro tA tB rfl rfl hs
    simp only [computeHole]
    rw [if_pos hs]
  · rintro tA tB rfl rfl hs hmiss
    simp only [computeHole]
    rw [if_neg hs]
    rcases e1 : getScore st (slotId tA 0) h with _ | sa1 <;>
      rcases e2 : getScore st (slotId tA 1) h with _ | sa2 <;>
        rcases e3 : getScore st (slotId tB 0) h with _ | sb1 <;>
          rcases e4 : getScore st (slotId tB 1) h with _ | sb2 <;>
            simp_all

/-- C2 witness: with both teams picked and rostered but hole index 18
out of the 18-cell score rows, the third gate fires. -/
theorem computeHole_gating_witness :
    computeHole stW "bestball" 18 (some tAW) (some tBW) (parArrayFor "hiawatha") =
      ⟨0, 0, "Waiting for scores", false⟩ :=
  (computeHole_gating stW "bestball" 18 (some tAW) (some tBW)
    (parArrayFor "hiawatha")).2.2 tAW tBW rfl rfl
    (by with_unfolding_all decide) (Or.inl (by with_unfolding_all decide))

/-- C10: for every hole result the live `computeHole` returns with
`complete = true`, the two point values sum to exactly 1 in bestball,
aggregate and stableford, to exactly 2 in highlow and captainmate, and
to 0 or 1 in skins (pre-carry). -/
theorem computeHole_stake_invariant (st : LiveState) (modeId : String)
    (h : ℕ) (A B : Option Team) (par : List ℚ)
    (hc : (computeHole st modeId h A B par).complete = true) :
    ((modeId = "bestball" ∨ modeId = "aggregate" ∨ modeId = "stableford") →
      (computeHole st modeId h A B par).aPts +
        (computeHole st modeId h A B par).bPts = 1) ∧
    ((modeId = "highlow" ∨ modeId = "captainmate") →
      (computeHole st modeId h A B par).aPts +
        (computeHole st modeId h A B par).bPts = 2) ∧
    (modeId = "skins" →
      (computeHole st modeId h A B par).aPts +
          (computeHole st modeId h A B par).bPts = 0 ∨
        (computeHole st modeId h A B par).aPts +
          (computeHole st modeId h A B par).bPts = 1) := by
  obtain ⟨tA, tB, sa1, sa2, sb1, sb2, rfl, rfl, _, heq⟩ :=
    computeHole_complete_elim st modeId h A B par hc
  rw [heq]
  exact liveModeResult_sum modeId sa1 sa2 sb1 sb2 (par.get? h)

/-- C10 witness: a complete highlow hole pays out exactly 2 points. -/
theorem computeHole_stake_invariant_witness :
    (computeHole stW "highlow" 0 (some tAW) (some tBW) (parArrayFor "hiawatha")).aPts +
      (computeHole stW "highlow" 0 (some tAW) (some tBW) (parArrayFor "hiawatha")).bPts = 2 :=
  (computeHole_stake_invariant stW "highlow" 0 (some tAW) (some tBW)
    (parArrayFor "hiawatha") (by with_unfolding_all decide)).2.1 (Or.inl rfl)

/-- C4: in stableford mode, each player's points are exactly
`stablefordSpecTable (stroke - par)` — the spec's table `≤-3 → 5`,
`-2 → 4`, `-1 → 3`, `0 → 2`, `1 → 1`, `≥2 → 0`, total on integers with
no other breakpoints — and on a complete hole the team with the strictly
higher two-player sum receives 1 point against 0, while equal sums give
exactly 0.5 each. -/
theorem stableford_table_and_team_points :
    (∀ sc p : ℤ, sp (sc : ℚ) (some (p : ℚ)) = stablefordSpecTable (sc - p)) ∧
    (∀ (st : LiveState) (h : ℕ) (tA tB : Team) (par : List ℚ)
        (sa1 sa2 sb1 sb2 : ℚ),
      gatesPass st h tA tB sa1 sa2 sb1 sb2 →
      (computeHole st "stableford" h (some tA) (some tB) par).complete = true ∧
      (sp sb1 (par.get? h) + sp sb2 (par.get? h) <
          sp sa1 (par.get? h) + sp sa2 (par.get? h) →
        pointsOf (computeHole st "stableford" h (some tA) (some tB) par) = (1, 0)) ∧
      (sp sa1 (par.get? h) + sp sa2 (par.get? h) <
          sp sb1 (par.get? h) + sp sb2 (par.get? h) →
        pointsOf (computeHole st "stableford" h (some tA) (some tB) par) = (0, 1)) ∧
      (sp sa1 (par.get? h) + sp sa2 (par.get? h) =
          sp sb1 (par.get? h) + sp sb2 (par.get? h) →
        pointsOf (computeHole st "stableford" h (some tA) (some tB) par) =
          (0.5, 0.5))) := by
  constructor
  · exact sp_intCast
  · intro st h tA tB par sa1 sa2 sb1 sb2 hg
    rw [computeHole_eq_mode st "stableford" h tA tB par sa1 sa2 sb1 sb2 hg]
    simp +decide only [liveModeResult, if_true, if_false]
    refine ⟨?_, ?_, ?_, ?_⟩
    · split_ifs <;> rfl
    · intro hlt
      rw [if_pos hlt]
      rfl
    · intro hlt
      rw [if_neg (lt_asymm hlt), if_pos hlt]
      rfl
    · intro heq
      rw [if_neg (by rw [heq]; exact lt_irrefl _), if_neg (by rw [heq]; exact lt_irrefl _)]
      rfl

/-- C1: `applySkinsCarry` is exactly the spec's sequential left-to-right
fold with one accumulator `carry` initialized to 0: per hole, a
not-complete hole emits 0/0 and keeps the carry; a complete halved hole
(both base points 0) bumps the carry and emits 0/0; a complete decisive
hole pays the winning side exactly `carry + 1` against 0 and resets the
carry — stated as: on every sequence of skins-shaped per-hole results,
the point pairs produced by `applySkinsCarry` coincide with
`skinsSpecFold`, the claim's fold written out independently. -/
theorem applySkinsCarry_is_spec_fold (l : List HoleResult)
    (hl : ∀ r ∈ l, skinsShaped r) :
    (applySkinsCarry l).map pointsOf = skinsSpecFold l := by
  rw [applySkinsCarry, skinsSpecFold, foldl_skinsSpecStep_eq l hl 0 []]
  simp

/-- C1 witness: a halved, a decisive and an incomplete hole run through
both the source transform and the spec fold. -/
theorem applySkinsCarry_is_spec_fold_witness :
    (applySkinsCarry
        [⟨0, 0, "", true⟩, ⟨1, 0, "", true⟩, ⟨0, 0, "", false⟩]).map pointsOf =
      skinsSpecFold [⟨0, 0, "", true⟩, ⟨1, 0, "", true⟩, ⟨0, 0, "", false⟩] :=
  applySkinsCarry_is_spec_fold
    [⟨0, 0, "", true⟩, ⟨1, 0, "", true⟩, ⟨0, 0, "", false⟩]
    (by with_unfolding_all decide)

/-- C3: for every 18-hole skins-shaped result sequence with all holes
complete, the total points `applySkinsCarry` awards over both sides
equal the number of ultimately decided holes, i.e. `18 - trailingTies l`
(every hole up to and including the last decisive one: ties roll forward
and are absorbed by the next decisive hole, holes after the last
decisive hole pay nothing); in particular a sequence with zero decisive
holes awards zero points in total — the final carry is lost. -/
theorem skins_carry_conservation (l : List HoleResult) (h18 : l.length = 18)
    (hcl : ∀ r ∈ l, r.complete = true) (hsl : ∀ r ∈ l, skinsShaped r) :
    trailingTies l ≤ 18 ∧
    pointsTotal (applySkinsCarry l) = (18 : ℚ) - trailingTies l ∧
    (l.any isDecisive = false → pointsTotal (applySkinsCarry l) = 0) := by
  have main := pointsTotal_applySkinsCarryGo l hcl hsl 0
  refine ⟨h18 ▸ trailingTies_le l, ?_, ?_⟩
  · rw [applySkinsCarry, main]
    by_cases ha : l.any isDecisive = true
    · rw [if_pos ha, h18]
      push_cast
      ring
    · have ha' : l.any isDecisive = false := by
        cases hq : l.any isDecisive
        · rfl
        · exact absurd hq ha
      rw [if_neg (by simp [ha']),
        trailingTies_eq_length_of_no_decisive l ha', h18]
      norm_num
  · intro ha
    rw [applySkinsCarry, main, if_neg (by simp [ha])]

/-- C3 witness: one decisive hole followed by 17 halves pays 1 point in
total (17 trailing ties), and 18 straight halves pay 0 — the carry is
lost. -/
theorem skins_carry_conservation_witness :
    pointsTotal (applySkinsCarry
        ((⟨1, 0, "", true⟩ : HoleResult) :: List.replicate 17 ⟨0, 0, "", true⟩)) =
      (18 : ℚ) - trailingTies
        ((⟨1, 0, "", true⟩ : HoleResult) :: List.replicate 17 ⟨0, 0, "", true⟩) ∧
    pointsTotal (applySkinsCarry
        (List.replicate 18 (⟨0, 0, "", true⟩ : HoleResult))) = 0 :=
  ⟨(skins_carry_conservation
      ((⟨1, 0, "", true⟩ : HoleResult) :: List.replicate 17 ⟨0, 0, "", true⟩)
      (by with_unfolding_all decide) (by with_unfolding_all decide)
      (by with_unfolding_all decide)).2.1,
    (skins_carry_conservation
      (List.replicate 18 (⟨0, 0, "", true⟩ : HoleResult))
      (by with_unfolding_all decide) (by with_unfolding_all decide)
      (by with_unfolding_all decide)).2.2 (by with_unfolding_all decide)⟩

/-- C8: tie and swap symmetry.  For a complete hole, equal team values
give exactly 0.5/0.5 in bestball (equal best balls), aggregate (equal
sums) and stableford (equal point sums); for every mode string, swapping
which team is passed as A and which as B swaps the two point values
exactly and preserves the completeness flag; and the skins carry
transform commutes with mirroring the two sides of every input result,
for every accumulator value. -/
theorem computeHole_tie_and_swap_symmetry :
    (∀ (st : LiveState) (h : ℕ) (tA tB : Team) (par : List ℚ)
        (sa1 sa2 sb1 sb2 : ℚ),
      gatesPass st h tA tB sa1 sa2 sb1 sb2 →
      (min sa1 sa2 = min sb1 sb2 →
        pointsOf (computeHole st "bestball" h (some tA) (some tB) par) =
          (0.5, 0.5)) ∧
      (sa1 + sa2 = sb1 + sb2 →
        pointsOf (computeHole st "aggregate" h (some tA) (some tB) par) =
          (0.5, 0.5)) ∧
      (sp sa1 (par.get? h) + sp sa2 (par.get? h) =
          sp sb1 (par.get? h) + sp sb2 (par.get? h) →
        pointsOf (computeHole st "stableford" h (some tA) (some tB) par) =
          (0.5, 0.5))) ∧
    (∀ (st : LiveState) (modeId : String) (h : ℕ) (A B : Option Team)
        (par : List ℚ),
      pointsOf (computeHole st modeId h B A par) =
          Prod.swap (pointsOf (computeHole st modeId h A B par)) ∧
        (computeHole st modeId h B A par).complete =
          (computeHole st modeId h A B par).complete) ∧
    (∀ (carry : ℕ) (l : List HoleResult),
      (applySkinsCarryGo carry (l.map swapResult)).map
          (fun r => (r.aPts, r.bPts, r.complete)) =
        (applySkinsCarryGo carry l).map
          (fun r => (r.bPts, r.aPts, r.complete))) := by
  refine ⟨?_, computeHole_swap, applySkinsCarryGo_swap⟩
  intro st h tA tB par sa1 sa2 sb1 sb2 hg
  refine ⟨?_, ?_, ?_⟩
  · intro heq
    rw [computeHole_eq_mode st "bestball" h tA tB par sa1 sa2 sb1 sb2 hg]
    simp +decide only [liveModeResult, if_true, if_false]
    rw [if_neg (by rw [heq]; exact lt_irrefl _),
      if_neg (by rw [heq]; exact lt_irrefl _)]
    rfl
  · intro heq
    rw [computeHole_eq_mode st "aggregate" h tA tB par sa1 sa2 sb1 sb2 hg]
    simp +decide only [liveModeResult, if_true, if_false]
    rw [if_neg (by rw [heq]; exact lt_irrefl _),
      if_neg (by rw [heq]; exact lt_irrefl _)]
    rfl
  · intro heq
    rw [computeHole_eq_mode st "stableford" h tA tB par sa1 sa2 sb1 sb2 hg]
    simp +decide only [liveModeResult, if_true, if_false]
    rw [if_neg (by rw [heq]; exact lt_irrefl _),
      if_neg (by rw [heq]; exact lt_irrefl _)]
    rfl

/-- C8 witness: in `stW` both teams' best ball at hole 1 is 4, and the
theorem yields the exact 0.5/0.5 push. -/
theorem computeHole_tie_and_swap_symmetry_witness :
    pointsOf (computeHole stW "bestball" 0 (some tAW) (some tBW)
      (parArrayFor "hiawatha")) = (0.5, 0.5) :=
  ((computeHole_tie_and_swap_symmetry.1 stW 0 tAW tBW (parArrayFor "hiawatha")
    4 5 4 6 (by with_unfolding_all decide)).1
    (by with_unfolding_all decide))

/-- C5 (code bug): the archive replay gate is NOT identical to the live
gate on empty stroke cells.  On the very same data, the live path
returns the incomplete "Waiting for scores" 0/0 result for the hole with
an empty cell, while `getHistScore` coerces the empty cell with
`Number("") = 0`, so `computeHoleHist` scores the hole as complete with
a best ball of 0 and awards it 1-0. -/
theorem getHistScore_empty_cell_divergence :
    getScore stBug "a1" 0 = none ∧
    getHistScore histBug "a1" 0 = some 0 ∧
    computeHoleHist st0 histBug 0 = ⟨1, 0, "", true⟩ ∧
    computeHole stBug "bestball" 0 (some tAW) (some tBW)
      (parArrayFor "hiawatha") = ⟨0, 0, "Waiting for scores", false⟩ := by
  with_unfolding_all decide

/-- C6: archive replay reads only the archive entry (and the static
course table): for any two live states — however their players, teams,
matches or score store differ — `computeHoleHist`, the whole replayed
18-hole sequence and its totals agree as long as the archive entry is
the same. -/
theorem computeHoleHist_live_state_independent (s1 s2 : LiveState)
    (hist : Hist) (h : ℕ) :
    computeHoleHist s1 hist h = computeHoleHist s2 hist h ∧
    histPerHole s1 hist = histPerHole s2 hist ∧
    histTotals (histPerHole s1 hist) = histTotals (histPerHole s2 hist) :=
  ⟨rfl, rfl, rfl⟩

/-- C7: the record aggregator's loop body counts an archive only when
all 18 replayed holes (post skins carry, per `histPerHole`) are
complete; it then bumps the involved team's win on a strictly greater
total, its loss on a strictly smaller one, and its tie count on exact
equality; an archive with any incomplete replayed hole, or one not
involving the team, leaves the counters untouched; and the whole
aggregate depends only on the archive list — states agreeing on
`history` give identical records however their live matches, roster or
scores differ. -/
theorem teamRecord_characterization :
    (∀ (st : LiveState) (tid : String) (acc : WLT) (h : Hist),
      ((histPerHole st h).all (fun r => r.complete) = false →
        recordStep st tid acc h = acc) ∧
      ((histPerHole st h).all (fun r => r.complete) = true →
        (h.teamA.id = tid → ¬(h.teamB.id = tid) →
          ((histTotals (histPerHole st h)).2 < (histTotals (histPerHole st h)).1 →
            recordStep st tid acc h = ⟨acc.w + 1, acc.l, acc.t⟩) ∧
          ((histTotals (histPerHole st h)).1 < (histTotals (histPerHole st h)).2 →
            recordStep st tid acc h = ⟨acc.w, acc.l + 1, acc.t⟩) ∧
          ((histTotals (histPerHole st h)).1 = (histTotals (histPerHole st h)).2 →
            recordStep st tid acc h = ⟨acc.w, acc.l, acc.t + 1⟩)) ∧
        (h.teamB.id = tid → ¬(h.teamA.id = tid) →
          ((histTotals (histPerHole st h)).2 < (histTotals (histPerHole st h)).1 →
            recordStep st tid acc h = ⟨acc.w, acc.l + 1, acc.t⟩) ∧
          ((histTotals (histPerHole st h)).1 < (histTotals (histPerHole st h)).2 →
            recordStep st tid acc h = ⟨acc.w + 1, acc.l, acc.t⟩) ∧
          ((histTotals (histPerHole st h)).1 = (histTotals (histPerHole st h)).2 →
            recordStep st tid acc h = ⟨acc.w, acc.l, acc.t + 1⟩)) ∧
        (¬(h.teamA.id = tid) → ¬(h.teamB.id = tid) →
          recordStep st tid acc h = acc))) ∧
    (∀ s1 s2 : LiveState, s1.history = s2.history →
      ∀ tid : String, teamRecord s1 tid = teamRecord s2 tid) := by
  constructor
  · intro st tid acc h
    constructor
    · intro hincomp
      simp [recordStep, hincomp]
    · intro hcomp
      refine ⟨?_, ?_, ?_⟩
      · intro haIs hbIs
        refine ⟨?_, ?_, ?_⟩
        · intro hlt
          simp [recordStep, hcomp, haIs, hbIs, hlt, lt_asymm hlt]
        · intro hlt
          simp [recordStep, hcomp, haIs, hbIs, hlt, lt_asymm hlt]
        · intro heq
          simp [recordStep, hcomp, haIs, hbIs, heq]
      · intro hbIs haIs
        refine ⟨?_, ?_, ?_⟩
        · intro hlt
          simp [recordStep, hcomp, haIs, hbIs, hlt, lt_asymm hlt]
        · intro hlt
          simp [recordStep, hcomp, haIs, hbIs, hlt, lt_asymm hlt]
        · intro heq
          simp [recordStep, hcomp, haIs, hbIs, heq]
      · intro haIs hbIs
        simp [recordStep, hcomp, haIs, hbIs]
  · intro s1 s2 hh tid
    unfold teamRecord
    rw [hh]
    rfl

/-- C7 witness: over `stH`, the fully complete `histFull` archive gives
team `TA` a win, and `histAlmost` — 17 complete holes, 1 incomplete —
contributes nothing. -/
theorem teamRecord_characterization_witness :
    recordStep stH "TA" ⟨0, 0, 0⟩ histFull = ⟨1, 0, 0⟩ ∧
    recordStep stH "TA" ⟨0, 0, 0⟩ histAlmost = ⟨0, 0, 0⟩ :=
  ⟨(((teamRecord_characterization.1 stH "TA" ⟨0, 0, 0⟩ histFull).2
      (by with_unfolding_all decide)).1 (by with_unfolding_all decide)
      (by with_unfolding_all decide)).1 (by with_unfolding_all decide),
    (teamRecord_characterization.1 stH "TA" ⟨0, 0, 0⟩ histAlmost).1
      (by with_unfolding_all decide)⟩

/-- C9 (code bug): export/restore does not reproduce the archive's
replayed per-hole results.  Restoring `histBug` re-creates its players,
teams and score rows and switches to its course, but the live recompute
of hole 1 gates the empty cell as missing (incomplete, 0/0) while the
archive replay of the very same entry scores it complete 1-0, so the
round trip changes the hole result. -/
theorem restore_roundtrip_divergence :
    computeHole (restoreHistory "m2" st0 histBug) "bestball" 0
        (findTeam (restoreHistory "m2" st0 histBug) "TA")
        (findTeam (restoreHistory "m2" st0 histBug) "TB")
        (liveParArray (restoreHistory "m2" st0 histBug)) =
      ⟨0, 0, "Waiting for scores", false⟩ ∧
    computeHoleHist (restoreHistory "m2" st0 histBug) histBug 0 =
      ⟨1, 0, "", true⟩ ∧
    (computeHole (restoreHistory "m2" st0 histBug) "bestball" 0
        (findTeam (restoreHistory "m2" st0 histBug) "TA")
        (findTeam (restoreHistory "m2" st0 histBug) "TB")
        (liveParArray (restoreHistory "m2" st0 histBug))).complete ≠
      (computeHoleHist (restoreHistory "m2" st0 histBug) histBug 0).complete := by
  with_unfolding_all decide

/-- C4 witness: at par 4, strokes 4+5 (3 points) beat strokes 4+6
(2 points) 1-0, and a birdie is worth 3 table points. -/
theorem stableford_table_and_team_points_witness :
    sp ((3 : ℤ) : ℚ) (some ((4 : ℤ) : ℚ)) = stablefordSpecTable ((3 : ℤ) - 4) ∧
    pointsOf (computeHole stW "stableford" 0 (some tAW) (some tBW)
      (parArrayFor "hiawatha")) = (1, 0) :=
  ⟨stableford_table_and_team_points.1 3 4,
    (stableford_table_and_team_points.2 stW 0 tAW tBW (parArrayFor "hiawatha")
      4 5 4 6 (by with_unfolding_all decide)).2.1
      (by with_unfolding_all decide)⟩

end GolfTrip
